import Mathlib

/-!
Shallow embedding of `src/Lab03S01/github_pr_analysis.py`, a single-file
pipeline that discovers popular GitHub repositories, collects pull-request
metadata and writes one row per qualifying pull request.

Modelling conventions:
* JSON payloads are values of the inductive type `JVal`.
* Python-level operations (`dict` indexing, `dict.get`, truthiness, `len`,
  `int(...)`, `str.split`, iteration) are embedded as total Lean functions
  returning `Except Exc _` where the Python operation can raise.
* The network is an oracle `Net : String → Nat → AttemptOutcome` giving, for
  every URL, the outcome of each successive `requests.get` on that URL
  (index restarts at 0 for each invocation of the retry wrapper, i.e. the
  remote state observed at a URL is the same across invocations — a
  deterministic, idempotent remote).  `Clock : String → Nat → ℚ` likewise
  supplies the successive values of `time.time()` observed while requesting
  a given URL.
* `time.sleep` is recorded in a trace (`RetrySt.sleeps`) rather than
  performed; the number of issued GETs is recorded in `RetrySt.requests`.
* The two `while` loops of the source (`buscar_repositorios_populares` and
  `main`) have no a-priori bound on the number of pages they visit, so the
  embedding takes a page-fuel parameter; running out of fuel stops the loop
  with the value it had accumulated.  All properties proved about these
  loops are safety properties of the emitted prefix, which are unaffected
  by the cut-off.
-/

/-- A JSON value, as produced by `response.json()`. -/
inductive JVal where
  | jnull : JVal
  | jbool : Bool → JVal
  | jnum : Int → JVal
  | jstr : String → JVal
  | jarr : List JVal → JVal
  | jobj : List (String × JVal) → JVal

mutual

def JVal.decEq : (a b : JVal) → Decidable (a = b)
  | .jnull, .jnull => .isTrue rfl
  | .jbool a, .jbool b =>
    match h : decide (a = b) with
    | true => .isTrue (by rw [of_decide_eq_true h])
    | false => .isFalse (fun hh => (of_decide_eq_false h) (by cases hh; rfl))
  | .jnum a, .jnum b =>
    match h : decide (a = b) with
    | true => .isTrue (by rw [of_decide_eq_true h])
    | false => .isFalse (fun hh => (of_decide_eq_false h) (by cases hh; rfl))
  | .jstr a, .jstr b =>
    match h : decide (a = b) with
    | true => .isTrue (by rw [of_decide_eq_true h])
    | false => .isFalse (fun hh => (of_decide_eq_false h) (by cases hh; rfl))
  | .jarr xs, .jarr ys =>
    match JVal.decEqList xs ys with
    | .isTrue h => .isTrue (by rw [h])
    | .isFalse h => .isFalse (fun hh => h (by cases hh; rfl))
  | .jobj xs, .jobj ys =>
    match JVal.decEqObj xs ys with
    | .isTrue h => .isTrue (by rw [h])
    | .isFalse h => .isFalse (fun hh => h (by cases hh; rfl))
  | .jnull, .jbool _ => .isFalse nofun
  | .jnull, .jnum _ => .isFalse nofun
  | .jnull, .jstr _ => .isFalse nofun
  | .jnull, .jarr _ => .isFalse nofun
  | .jnull, .jobj _ => .isFalse nofun
  | .jbool _, .jnull => .isFalse nofun
  | .jbool _, .jnum _ => .isFalse nofun
  | .jbool _, .jstr _ => .isFalse nofun
  | .jbool _, .jarr _ => .isFalse nofun
  | .jbool _, .jobj _ => .isFalse nofun
  | .jnum _, .jnull => .isFalse nofun
  | .jnum _, .jbool _ => .isFalse nofun
  | .jnum _, .jstr _ => .isFalse nofun
  | .jnum _, .jarr _ => .isFalse nofun
  | .jnum _, .jobj _ => .isFalse nofun
  | .jstr _, .jnull => .isFalse nofun
  | .jstr _, .jbool _ => .isFalse nofun
  | .jstr _, .jnum _ => .isFalse nofun
  | .jstr _, .jarr _ => .isFalse nofun
  | .jstr _, .jobj _ => .isFalse nofun
  | .jarr _, .jnull => .isFalse nofun
  | .jarr _, .jbool _ => .isFalse nofun
  | .jarr _, .jnum _ => .isFalse nofun
  | .jarr _, .jstr _ => .isFalse nofun
  | .jarr _, .jobj _ => .isFalse nofun
  | .jobj _, .jnull => .isFalse nofun
  | .jobj _, .jbool _ => .isFalse nofun
  | .jobj _, .jnum _ => .isFalse nofun
  | .jobj _, .jstr _ => .isFalse nofun
  | .jobj _, .jarr _ => .isFalse nofun

def JVal.decEqList : (xs ys : List JVal) → Decidable (xs = ys)
  | [], [] => .isTrue rfl
  | [], _ :: _ => .isFalse nofun
  | _ :: _, [] => .isFalse nofun
  | x :: xs, y :: ys =>
    match JVal.decEq x y with
    | .isFalse h => .isFalse (fun hh => h (by cases hh; rfl))
    | .isTrue h1 =>
      match JVal.decEqList xs ys with
      | .isTrue h2 => .isTrue (by rw [h1, h2])
      | .isFalse h => .isFalse (fun hh => h (by cases hh; rfl))

def JVal.decEqObj : (xs ys : List (String × JVal)) → Decidable (xs = ys)
  | [], [] => .isTrue rfl
  | [], _ :: _ => .isFalse nofun
  | _ :: _, [] => .isFalse nofun
  | (k1, v1) :: xs, (k2, v2) :: ys =>
    match h : decide (k1 = k2) with
    | false => .isFalse (fun hh => (of_decide_eq_false h) (by cases hh; rfl))
    | true =>
      match JVal.decEq v1 v2 with
      | .isFalse hv => .isFalse (fun hh => hv (by cases hh; rfl))
      | .isTrue hv =>
        match JVal.decEqObj xs ys with
        | .isTrue h2 => .isTrue (by rw [of_decide_eq_true h, hv, h2])
        | .isFalse h2 => .isFalse (fun hh => h2 (by cases hh; rfl))

end

instance : DecidableEq JVal := JVal.decEq

/-- The Python exceptions that the embedded code can raise. -/
inductive Exc where
  | httpError : Nat → Exc            -- requests.HTTPError (carries the status)
  | connError : Exc                  -- a requests.RequestException that is not an HTTPError
  | keyError : String → Exc          -- KeyError
  | attributeError : Exc             -- AttributeError (e.g. `.get` on a non-dict)
  | typeError : Exc                  -- TypeError (e.g. len() of an int, strptime of None)
  | valueError : Exc                 -- ValueError (e.g. int() of a non-numeric string)
  | exhausted : Exc                  -- the bare `Exception(f"Falha após ... tentativas")`
deriving DecidableEq

instance instDecEqExcept {e a : Type} [DecidableEq e] [DecidableEq a] :
    DecidableEq (Except e a)
  | .error e1, .error e2 =>
    if h : e1 = e2 then .isTrue (by rw [h]) else .isFalse (fun hh => h (by cases hh; rfl))
  | .ok a1, .ok a2 =>
    if h : a1 = a2 then .isTrue (by rw [h]) else .isFalse (fun hh => h (by cases hh; rfl))
  | .error _, .ok _ => .isFalse nofun
  | .ok _, .error _ => .isFalse nofun

/-- `requests.HTTPError` and `requests.ConnectionError` are both subclasses of
`requests.RequestException`; nothing else in `Exc` is. -/
def Exc.isRequestException : Exc → Bool
  | .httpError _ => true
  | .connError => true
  | _ => false

def Exc.isKeyError : Exc → Bool
  | .keyError _ => true
  | _ => false

/-- The response headers the source reads. -/
structure Headers where
  rateLimitRemaining : Option String
  rateLimitReset : Option String
  link : Option String
deriving DecidableEq

/-- One possible outcome of a single `requests.get`. -/
inductive AttemptOutcome where
  | success : Headers → JVal → AttemptOutcome       -- 2xx: raise_for_status passes
  | httpError : Nat → Headers → AttemptOutcome      -- raise_for_status raises HTTPError
  | connError : AttemptOutcome                      -- requests.get itself raises
deriving DecidableEq

structure Response where
  headers : Headers
  body : JVal
deriving DecidableEq

def Net : Type := String → Nat → AttemptOutcome
def Clock : Type := String → Nat → ℚ

/-! ## Python-semantics primitives -/

/-- Python truthiness of a JSON value. -/
def pyTruthy : JVal → Bool
  | .jnull => false
  | .jbool b => b
  | .jnum n => n != 0
  | .jstr s => !s.isEmpty
  | .jarr xs => !xs.isEmpty
  | .jobj fs => !fs.isEmpty

/-- Python `len(...)` of a JSON value: defined for strings, lists and dicts,
`TypeError` otherwise. -/
def pyLen : JVal → Except Exc Nat
  | .jstr s => .ok s.length
  | .jarr xs => .ok xs.length
  | .jobj fs => .ok fs.length
  | _ => .error .typeError

/-- Python `d[k]` on a JSON value: `KeyError` when the key is missing from a
dict, `TypeError` when the value is not a dict. -/
def pyIndex (v : JVal) (k : String) : Except Exc JVal :=
  match v with
  | .jobj fs =>
    match fs.lookup k with
    | some w => .ok w
    | none => .error (.keyError k)
  | _ => .error .typeError

/-- Python `d.get(k)`: `AttributeError` when the receiver is not a dict. -/
def pyGet (v : JVal) (k : String) : Except Exc (Option JVal) :=
  match v with
  | .jobj fs => .ok (fs.lookup k)
  | _ => .error .attributeError

/-- `d.get(k)` returns `None` when the key is missing. -/
def optD (o : Option JVal) : JVal := o.getD .jnull

/-- Python iteration `for x in v`: lists yield their elements, dicts their
keys, strings their characters; other values raise `TypeError`. -/
def pyIterE : JVal → Except Exc (List JVal)
  | .jarr xs => .ok xs
  | .jobj fs => .ok (fs.map (fun f => .jstr f.1))
  | .jstr s => .ok (s.toList.map (fun c => .jstr (String.singleton c)))
  | _ => .error .typeError

def digitVal (c : Char) : Nat := c.toNat - '0'.toNat

def digitsToNat : List Char → Nat → Nat
  | [], acc => acc
  | c :: cs, acc => digitsToNat cs (acc * 10 + digitVal c)

/-- Python `int(s)` on a string: strips surrounding whitespace, accepts an
optional sign followed by digits, raises `ValueError` otherwise (returns
`none` here). -/
def pyIntOfString (s : String) : Option Int :=
  match ((s.toList.dropWhile Char.isWhitespace).reverse.dropWhile
      Char.isWhitespace).reverse with
  | [] => none
  | '-' :: ds =>
    if !ds.isEmpty && ds.all Char.isDigit then some (-(digitsToNat ds 0 : Int)) else none
  | '+' :: ds =>
    if !ds.isEmpty && ds.all Char.isDigit then some ((digitsToNat ds 0 : Int)) else none
  | ds =>
    if ds.all Char.isDigit then some ((digitsToNat ds 0 : Int)) else none

/-- Strip `p` as a prefix of `l`, returning the remainder on success. -/
def stripPre : List Char → List Char → Option (List Char)
  | [], l => some l
  | _ :: _, [] => none
  | a :: p, b :: l => if a == b then stripPre p l else none

/-- One pass of Python `s.split(sep)` for a separator `s0 :: srest`; the fuel
starts at the subject's length, which bounds the number of steps. -/
def pySplitAux (s0 : Char) (srest : List Char) : Nat → List Char → List Char → List (List Char)
  | 0, rem, cur => [cur.reverse ++ rem]
  | _ + 1, [], cur => [cur.reverse]
  | fuel + 1, c :: rest, cur =>
    if c == s0 then
      match stripPre srest rest with
      | some rem => cur.reverse :: pySplitAux s0 srest fuel rem []
      | none => pySplitAux s0 srest fuel rest (c :: cur)
    else pySplitAux s0 srest fuel rest (c :: cur)

/-- Python `s.split(sep)` for a non-empty separator (the only kind the source
uses; Python raises on an empty separator). -/
def pySplit (s sep : String) : List String :=
  match sep.toList with
  | [] => [s]
  | s0 :: srest => (pySplitAux s0 srest s.toList.length s.toList []).map String.mk

/-- Python `str(v)` as used in f-strings (only strings and numbers occur in
practice; the other renderings are best-effort). -/
def jvalToStr : JVal → String
  | .jstr s => s
  | .jnum n => toString n
  | .jnull => "None"
  | .jbool true => "True"
  | .jbool false => "False"
  | .jarr _ => "[...]"
  | .jobj _ => "\x7b...\x7d"

/-- Python `set.add`: appends the value when it is not already a member. -/
def addUnique (xs : List JVal) (v : JVal) : List JVal :=
  if v ∈ xs then xs else xs ++ [v]

/-! ## `datetime.strptime(_, "%Y-%m-%dT%H:%M:%SZ")` and timestamp arithmetic -/

def isLeapYear (y : Nat) : Bool := y % 4 == 0 && (y % 100 != 0 || y % 400 == 0)

def daysInMonth (y m : Nat) : Nat :=
  if m == 2 then (if isLeapYear y then 29 else 28)
  else if m == 4 || m == 6 || m == 9 || m == 11 then 30
  else 31

/-- Days of year `y` that precede month `m` (for `1 ≤ m ≤ 12`). -/
def daysBeforeMonth (y m : Nat) : Nat :=
  let base := [0, 31, 59, 90, 120, 151, 181, 212, 243, 273, 304, 334].getD (m - 1) 0
  if 2 < m && isLeapYear y then base + 1 else base

/-- `datetime.toordinal`-style day number on the proleptic Gregorian calendar. -/
def ordinalDays (y m d : Nat) : Nat :=
  let n := y - 1
  (365 * n + n / 4 - n / 100 + n / 400) + daysBeforeMonth y m + d

structure DT where
  year : Nat
  month : Nat
  day : Nat
  hour : Nat
  minute : Nat
  second : Nat
deriving DecidableEq

/-- The validation `datetime(...)` performs on the captured fields. -/
def DT.valid (t : DT) : Bool :=
  1 ≤ t.year && 1 ≤ t.month && t.month ≤ 12 &&
  1 ≤ t.day && t.day ≤ daysInMonth t.year t.month &&
  t.hour ≤ 23 && t.minute ≤ 59 && t.second ≤ 59

/-- The timestamp in whole seconds; differences of two values of this function
agree with `(a - b).total_seconds()` for exact-second datetimes. -/
def DT.toSeconds (t : DT) : Int :=
  ((ordinalDays t.year t.month t.day) * 86400 + t.hour * 3600 + t.minute * 60 + t.second : Nat)

/-- `%Y`: exactly four digits. -/
def parse4 : List Char → Option (Nat × List Char)
  | a :: b :: c :: d :: rest =>
    if a.isDigit && b.isDigit && c.isDigit && d.isDigit then
      some (((digitVal a * 10 + digitVal b) * 10 + digitVal c) * 10 + digitVal d, rest)
    else none
  | _ => none

/-- `%m`/`%d`/`%H`/`%M`/`%S`: one or two digits, taken greedily. -/
def parse12 : List Char → Option (Nat × List Char)
  | a :: b :: rest =>
    if a.isDigit then
      if b.isDigit then some (digitVal a * 10 + digitVal b, rest)
      else some (digitVal a, b :: rest)
    else none
  | [a] => if a.isDigit then some (digitVal a, []) else none
  | [] => none

def expectChar (c : Char) : List Char → Option (List Char)
  | a :: rest => if a == c then some rest else none
  | [] => none

/-- Match a string against the fixed format `"%Y-%m-%dT%H:%M:%SZ"`. -/
def parseTimestamp (s : String) : Option DT := do
  let (y, cs) ← parse4 s.toList
  let cs ← expectChar '-' cs
  let (m, cs) ← parse12 cs
  let cs ← expectChar '-' cs
  let (d, cs) ← parse12 cs
  let cs ← expectChar 'T' cs
  let (hh, cs) ← parse12 cs
  let cs ← expectChar ':' cs
  let (mi, cs) ← parse12 cs
  let cs ← expectChar ':' cs
  let (ss, cs) ← parse12 cs
  let cs ← expectChar 'Z' cs
  if cs.isEmpty then some ⟨y, m, d, hh, mi, ss⟩ else none

/-- `datetime.strptime(v, "%Y-%m-%dT%H:%M:%SZ")`, reduced to the use the
source makes of its result: `TypeError` on a non-string argument, `ValueError`
on a string that does not match the format or names an invalid date,
otherwise the timestamp in seconds. -/
def strptimeGH : JVal → Except Exc Int
  | .jstr s =>
    match parseTimestamp s with
    | some t => if t.valid then .ok t.toSeconds else .error .valueError
    | none => .error .valueError
  | _ => .error .typeError

/-! ## Configuration constants (lines 6–17) -/

def BASE_URL : String := "https://api.github.com"
def REPOS_LIMIT : Nat := 200
def PRS_LIMIT : Nat := 25
def MAX_RETRIES : Nat := 3
def MIN_PRS_COUNT : Int := 100

/-! ## HTTP Request Executor: `fazer_requisicao_com_retry` (lines 20–47) -/

/-- `int(headers.get(name, 0))`: the header value parsed by Python `int`, the
default `0` when the header is absent, `ValueError` when it is present but
non-numeric. -/
def parseHeaderInt : Option String → Except Exc Int
  | none => .ok 0
  | some s =>
    match pyIntOfString s with
    | some n => .ok n
    | none => .error .valueError

/-- The observable effects of one executor invocation: how many GETs were
issued, how many times `time.time()` was read, and the `time.sleep`
durations, in order. -/
structure RetrySt where
  requests : Nat
  clockIdx : Nat
  sleeps : List ℚ
deriving DecidableEq

/-- The `for tentativa in range(max_retries)` loop of
`fazer_requisicao_com_retry`: the first component is the returned response or
the raised exception (`Exc.exhausted` models the bare
`Exception(f"Falha após ... tentativas")` raised when the loop falls
through), the second the accumulated effects. -/
def retryLoop (attempts : Nat → AttemptOutcome) (clock : Nat → ℚ) :
    Nat → RetrySt → Except Exc Response × RetrySt
  | 0, st => (.error .exhausted, st)
  | n + 1, st =>
    let st1 : RetrySt := { st with requests := st.requests + 1 }
    match attempts st.requests with
    | .connError => (.error .connError, st1)
    | .success hd body =>
      match parseHeaderInt hd.rateLimitRemaining with
      | .error e => (.error e, st1)
      | .ok remaining =>
        match parseHeaderInt hd.rateLimitReset with
        | .error e => (.error e, st1)
        | .ok reset =>
          if remaining < 10 then
            let sleep_time : ℚ := max ((reset : ℚ) - clock st1.clockIdx) 0 + 1
            (.ok ⟨hd, body⟩,
              { st1 with clockIdx := st1.clockIdx + 1, sleeps := st1.sleeps ++ [sleep_time] })
          else (.ok ⟨hd, body⟩, st1)
    | .httpError status hd =>
      if status == 403 then
        match parseHeaderInt hd.rateLimitReset with
        | .error e => (.error e, st1)
        | .ok reset =>
          let sleep_time : ℚ := max ((reset : ℚ) - clock st1.clockIdx) 0 + 1
          retryLoop attempts clock n
            { st1 with clockIdx := st1.clockIdx + 1, sleeps := st1.sleeps ++ [sleep_time] }
      else (.error (.httpError status), st1)

def fazer_requisicao_com_retry (attempts : Nat → AttemptOutcome) (clock : Nat → ℚ)
    (max_retries : Nat) : Except Exc Response × RetrySt :=
  retryLoop attempts clock max_retries ⟨0, 0, []⟩

/-! ## Pull-Request Collector: `coletar_dados_pr` (lines 50–103) -/

/-- One output row (the dict built at lines 86–97). -/
structure Record where
  repo_name : String
  pr_number : JVal
  num_files_changed : JVal
  lines_added : JVal
  lines_removed : JVal
  review_time_in_hours : ℚ
  pr_description_length : Nat
  num_comments : JVal
  num_participants : Nat
  pr_status : String
deriving DecidableEq

/-- Lines 76–78: seed the `participants` set with the PR author's login when
`pr_data.get("user")` and `pr_data["user"].get("login")` are both truthy. -/
def authorParticipants (pr_data : JVal) : Except Exc (List JVal) :=
  match pyGet pr_data "user" with
  | .error e => .error e
  | .ok userO =>
    if pyTruthy (optD userO) then
      match pyGet (optD userO) "login" with
      | .error e => .error e
      | .ok loginO =>
        if pyTruthy (optD loginO) then
          match pyIndex (optD userO) "login" with
          | .error e => .error e
          | .ok l => .ok (addUnique [] l)
        else .ok []
    else .ok []

/-- Lines 79–81: add each review author's login when `review.get("user")` and
`review["user"]["login"]` are both truthy. -/
def reviewParticipants (rlist : List JVal) (acc : List JVal) : Except Exc (List JVal) :=
  match rlist with
  | [] => .ok acc
  | review :: rest =>
    match pyGet review "user" with
    | .error e => .error e
    | .ok userO =>
      if pyTruthy (optD userO) then
        match pyIndex review "user" with
        | .error e => .error e
        | .ok u =>
          match pyIndex u "login" with
          | .error e => .error e
          | .ok l =>
            if pyTruthy l then reviewParticipants rest (addUnique acc l)
            else reviewParticipants rest acc
      else reviewParticipants rest acc

/-- Python `x or ""` as used for the PR body at line 93. -/
def orEmptyStr (o : Option JVal) : JVal :=
  if pyTruthy (optD o) then optD o else .jstr ""

/-- Line 84: `"merged" if pr_data.get("merged_at") else "closed"`. -/
def statusOf (mergedO : Option JVal) : String :=
  if pyTruthy (optD mergedO) then "merged" else "closed"

/-- Lines 65–97 of `coletar_dados_pr`: processing of an already fetched PR
detail payload and review payload into a row (or `none` for a rejection). -/
def processPR (repo_name : String) (pr_number : JVal) (pr_data reviews : JVal) :
    Except Exc (Option Record) :=
  match pyLen reviews with
  | .error e => .error e
  | .ok nRev =>
    if nRev == 0 then .ok none else
    match pyIndex pr_data "created_at" with
    | .error e => .error e
    | .ok createdV =>
      match strptimeGH createdV with
      | .error e => .error e
      | .ok created_at =>
        match pyIndex pr_data "closed_at" with
        | .error e => .error e
        | .ok closedV =>
          match strptimeGH closedV with
          | .error e => .error e
          | .ok closed_at =>
            let review_time : ℚ := ((closed_at - created_at : Int) : ℚ) / 3600
            if review_time < 1 then .ok none else
            match authorParticipants pr_data with
            | .error e => .error e
            | .ok p0 =>
              match pyIterE reviews with
              | .error e => .error e
              | .ok rlist =>
                match reviewParticipants rlist p0 with
                | .error e => .error e
                | .ok participants =>
                  match pyGet pr_data "merged_at" with
                  | .error e => .error e
                  | .ok mergedO =>
                    match pyIndex pr_data "changed_files" with
                    | .error e => .error e
                    | .ok cf =>
                      match pyIndex pr_data "additions" with
                      | .error e => .error e
                      | .ok la =>
                        match pyIndex pr_data "deletions" with
                        | .error e => .error e
                        | .ok lr =>
                          match pyGet pr_data "body" with
                          | .error e => .error e
                          | .ok bodyO =>
                            match pyLen (orEmptyStr bodyO) with
                            | .error e => .error e
                            | .ok blen =>
                              match pyIndex pr_data "comments" with
                              | .error e => .error e
                              | .ok cm =>
                                .ok (some {
                                  repo_name := repo_name
                                  pr_number := pr_number
                                  num_files_changed := cf
                                  lines_added := la
                                  lines_removed := lr
                                  review_time_in_hours := review_time
                                  pr_description_length := blen
                                  num_comments := cm
                                  num_participants := participants.length
                                  pr_status := statusOf mergedO })

/-- The `except requests.RequestException` / `except KeyError` handlers of
`coletar_dados_pr` (lines 98–103): both log and return `None`; any other
exception propagates. -/
def handleCollect : Except Exc (Option Record) → Except Exc (Option Record)
  | .ok r => .ok r
  | .error e =>
    if e.isRequestException || e.isKeyError then .ok none else .error e

/-- The `try` body of `coletar_dados_pr` (lines 57–97): fetch the PR detail
and its reviews, then process the pair. -/
def collectBody (net : Net) (clock : Clock) (repo_name : String) (pr_number : JVal)
    (pr_url : String) : Except Exc (Option Record) :=
  match (fazer_requisicao_com_retry (net pr_url) (clock pr_url) MAX_RETRIES).1 with
  | .error e => .error e
  | .ok pr_response =>
    match (fazer_requisicao_com_retry (net (pr_url ++ "/reviews"))
        (clock (pr_url ++ "/reviews")) MAX_RETRIES).1 with
    | .error e => .error e
    | .ok reviews_response =>
      processPR repo_name pr_number pr_response.body reviews_response.body

/-- `coletar_dados_pr`.  The accesses `pr["number"]` and `pr["url"]`
(lines 54–55) happen before the `try` block, so their exceptions are not
handled. -/
def coletar_dados_pr (net : Net) (clock : Clock) (repo_name : String) (pr : JVal) :
    Except Exc (Option Record) :=
  match pyIndex pr "number", pyIndex pr "url" with
  | .ok pr_number, .ok pr_urlV =>
    handleCollect (collectBody net clock repo_name pr_number (jvalToStr pr_urlV))
  | .error e, _ => .error e
  | .ok _, .error e => .error e

/-! ## Closed-PR estimator: `obter_numero_prs_fechados` (lines 134–145) -/

/-- The split chain of line 141 extracting the last-page number from the
`Link` header:
`link.split(",")[-1].split("&page=")[-1].split(">")[0]`. -/
def linkExtract (link : String) : String :=
  (pySplit ((pySplit ((pySplit link ",").getLastD "") "&page=").getLastD "") ">").headD ""

/-- `obter_numero_prs_fechados`.  The `except Exception` handler catches
every failure and returns `0`, so the function is total. -/
def obter_numero_prs_fechados (net : Net) (clock : Clock) (repo_name : String) : Int :=
  let url := BASE_URL ++ "/repos/" ++ repo_name ++ "/pulls?state=closed&per_page=1"
  match (fazer_requisicao_com_retry (net url) (clock url) MAX_RETRIES).1 with
  | .error _ => 0
  | .ok response =>
    let total_prs := linkExtract ((response.headers.link).getD "")
    if total_prs.isEmpty then 0
    else
      match pyIntOfString total_prs with
      | some n => n
      | none => 0

/-! ## Repository Discoverer: `buscar_repositorios_populares` (lines 106–131) -/

def searchURL (page : Nat) : String :=
  BASE_URL ++ "/search/repositories?q=stars:>1&sort=stars&order=desc&per_page=100&page="
    ++ toString page

/-- The `for repo in data["items"]` loop (lines 119–126): append each
repository whose closed-PR estimate meets `MIN_PRS_COUNT`, stopping once
`quantidade` are accumulated. -/
def buscarScan (net : Net) (clock : Clock) (quantidade : Nat) :
    List JVal → List JVal → Except Exc (List JVal)
  | [], repos => .ok repos
  | item :: rest, repos =>
    match pyIndex item "full_name" with
    | .error e => .error e
    | .ok v =>
      let repo_name := jvalToStr v
      let pr_count := obter_numero_prs_fechados net clock repo_name
      let repos1 := if MIN_PRS_COUNT ≤ pr_count then repos ++ [item] else repos
      if quantidade ≤ repos1.length then .ok repos1
      else buscarScan net clock quantidade rest repos1

/-- The `try` body of one discovery iteration (lines 117–127). -/
def buscarTryBody (net : Net) (clock : Clock) (quantidade page : Nat)
    (repos : List JVal) : Except Exc (List JVal) :=
  match (fazer_requisicao_com_retry (net (searchURL page)) (clock (searchURL page))
      MAX_RETRIES).1 with
  | .error e => .error e
  | .ok response =>
    match pyIndex response.body "items" with
    | .error e => .error e
    | .ok items =>
      match pyIterE items with
      | .error e => .error e
      | .ok itemsL => buscarScan net clock quantidade itemsL repos

/-- The `while len(repos) < quantidade` loop (lines 114–130), with page fuel
(see the module comment).  The `except requests.RequestException` handler
logs and breaks, returning what was accumulated; any other exception (a
`KeyError` on `data["items"]` or `repo["full_name"]`, or the retry-exhaustion
`Exception`) escapes. -/
def buscarLoop (net : Net) (clock : Clock) (quantidade : Nat) :
    Nat → Nat → List JVal → Except Exc (List JVal)
  | 0, _, repos => .ok (repos.take quantidade)
  | fuel + 1, page, repos =>
    if repos.length < quantidade then
      match buscarTryBody net clock quantidade page repos with
      | .error e =>
        if e.isRequestException then .ok (repos.take quantidade) else .error e
      | .ok repos1 => buscarLoop net clock quantidade fuel (page + 1) repos1
    else .ok (repos.take quantidade)

def buscar_repositorios_populares (net : Net) (clock : Clock) (fuel quantidade : Nat) :
    Except Exc (List JVal) :=
  buscarLoop net clock quantidade fuel 1 []

/-! ## Pipeline Driver: `main` (lines 148–196) -/

def listingURL (repo_name : String) (page : Nat) : String :=
  BASE_URL ++ "/repos/" ++ repo_name ++ "/pulls?state=closed&per_page=100&page="
    ++ toString page

/-- Fetch one listing page of closed PRs for a repository (line 169). -/
def fetchPage (net : Net) (clock : Clock) (repo_name : String) (page : Nat) :
    Except Exc JVal :=
  ((fazer_requisicao_com_retry (net (listingURL repo_name page))
    (clock (listingURL repo_name page)) MAX_RETRIES).1).map Response.body

/-- The `for pr in prs` loop of `main` (lines 176–186).  Returns the updated
`pr_count`, the rows written so far, the PR summaries iterated so far (a
trace used to state ordering properties), and whether an exception aborted
the repository (landing in the `except Exception` at line 190). -/
def processPagePRs (net : Net) (clock : Clock) (repo_name : String) :
    List JVal → Nat → List Record → List JVal → Nat × List Record × List JVal × Bool
  | [], pr_count, rows, seen => (pr_count, rows, seen, false)
  | pr :: rest, pr_count, rows, seen =>
    match pyIndex pr "number" with
    | .error _ => (pr_count, rows, seen ++ [pr], true)
    | .ok _ =>
      match coletar_dados_pr net clock repo_name pr with
      | .error _ => (pr_count, rows, seen ++ [pr], true)
      | .ok none =>
        if PRS_LIMIT ≤ pr_count then (pr_count, rows, seen ++ [pr], false)
        else processPagePRs net clock repo_name rest pr_count rows (seen ++ [pr])
      | .ok (some rec) =>
        if PRS_LIMIT ≤ pr_count + 1 then (pr_count + 1, rows ++ [rec], seen ++ [pr], false)
        else processPagePRs net clock repo_name rest (pr_count + 1) (rows ++ [rec]) (seen ++ [pr])

/-- The `while pr_count < PRS_LIMIT` loop of `main` (lines 166–192), with
page fuel (see the module comment). -/
def processRepoLoop (net : Net) (clock : Clock) (repo_name : String) :
    Nat → Nat → Nat → List Record → List JVal → List Record × List JVal
  | 0, _, _, rows, seen => (rows, seen)
  | fuel + 1, page, pr_count, rows, seen =>
    if pr_count < PRS_LIMIT then
      match fetchPage net clock repo_name page with
      | .error _ => (rows, seen)
      | .ok prs =>
        if pyTruthy prs then
          match pyIterE prs with
          | .error _ => (rows, seen)
          | .ok prsL =>
            let res := processPagePRs net clock repo_name prsL pr_count rows seen
            if res.2.2.2 then (res.2.1, res.2.2.1)
            else processRepoLoop net clock repo_name fuel (page + 1) res.1 res.2.1 res.2.2.1
        else (rows, seen)
    else (rows, seen)

/-- Processing of one discovered repository by the driver. -/
def processRepo (net : Net) (clock : Clock) (repo_name : String) (fuel : Nat) :
    List Record × List JVal :=
  processRepoLoop net clock repo_name fuel 1 0 [] []

/-- The `for repo_index, repo in enumerate(repos, 1)` loop of `main`
(lines 160–194).  `repo["full_name"]` (line 161) sits outside the inner
`try`, so its exception aborts the whole run; the rows already written are
kept (they are already in the file). -/
def mainRepos (net : Net) (clock : Clock) (fuel : Nat) :
    List JVal → List Record → List Record × Option Exc
  | [], rows => (rows, none)
  | repo :: rest, rows =>
    match pyIndex repo "full_name" with
    | .error e => (rows, some e)
    | .ok v =>
      mainRepos net clock fuel rest (rows ++ (processRepo net clock (jvalToStr v) fuel).1)

/-- `main`: the rows written to the CSV, in order, plus the exception that
aborted the run, if any. -/
def mainRun (net : Net) (clock : Clock) (fuel : Nat) : List Record × Option Exc :=
  match buscar_repositorios_populares net clock fuel REPOS_LIMIT with
  | .error e => ([], some e)
  | .ok repos => mainRepos net clock fuel repos []

/-! ## Derived notions used to state the driver's properties -/

/-- The record one driver iteration writes for one listed PR summary, if
any. -/
def collectOk (net : Net) (clock : Clock) (repo_name : String) (pr : JVal) : Option Record :=
  match coletar_dados_pr net clock repo_name pr with
  | .ok (some rec) => some rec
  | _ => none

/-- The name under which the driver processes a discovered repository. -/
def repoNameOf (repo : JVal) : Option String :=
  match pyIndex repo "full_name" with
  | .ok v => some (jvalToStr v)
  | .error _ => none

/-- The rows the driver writes for one discovered repository. -/
def repoRows (net : Net) (clock : Clock) (fuel : Nat) (repo : JVal) : List Record :=
  match repoNameOf repo with
  | some name => (processRepo net clock name fuel).1
  | none => []

/-- The PR summaries one listing page contributes, as the driver reads it. -/
def pageItems (net : Net) (clock : Clock) (repo_name : String) (page : Nat) : List JVal :=
  match fetchPage net clock repo_name page with
  | .error _ => []
  | .ok prs =>
    if pyTruthy prs then
      match pyIterE prs with
      | .ok l => l
      | .error _ => []
    else []

/-- The PR summaries of listing pages `page, page + 1, …, page + k - 1`. -/
def pagesFrom (net : Net) (clock : Clock) (repo_name : String) (page k : Nat) : List JVal :=
  ((List.range k).map (fun i => pageItems net clock repo_name (page + i))).flatten

/-- The concatenation of listing pages `1` through `k`, which is the order in
which the source API lists the pull requests of a repository. -/
def pagesJoined (net : Net) (clock : Clock) (repo_name : String) (k : Nat) : List JVal :=
  pagesFrom net clock repo_name 1 k

/-- A discovered repository qualifies: it carries a `full_name` and its
closed-PR estimate meets the minimum threshold (lines 120–123). -/
def repoQualifies (net : Net) (clock : Clock) (repo : JVal) : Prop :=
  ∃ v, pyIndex repo "full_name" = .ok v ∧
    MIN_PRS_COUNT ≤ obter_numero_prs_fechados net clock (jvalToStr v)

/-! ## Spec-side definitions for the participant-count claim -/

/-- Lookup `v[k1][k2]` when both levels are dicts and the keys are present; a
`null` value is treated as an absent login. -/
def jlookup2 (v : JVal) (k1 k2 : String) : Option JVal :=
  match v with
  | .jobj fs =>
    match fs.lookup k1 with
    | some (.jobj gs) =>
      match gs.lookup k2 with
      | some .jnull => none
      | some w => some w
      | none => none
    | _ => none
  | _ => none

/-- Modelled from the spec's words: "the set containing the PR author's login
(if present) and every review author's login (if present)". -/
def specLoginsPresent (pr_data : JVal) (rlist : List JVal) : List JVal :=
  (jlookup2 pr_data "user" "login").toList
    ++ rlist.filterMap (fun r => jlookup2 r "user" "login")

/-- The cardinality of the spec's participant set. -/
def specParticipantCountPresent (pr_data : JVal) (rlist : List JVal) : Nat :=
  (specLoginsPresent pr_data rlist).dedup.length

/-- The amended participant set: only logins that are present and truthy
(in particular non-empty) are counted. -/
def specLoginsTruthy (pr_data : JVal) (rlist : List JVal) : List JVal :=
  ((jlookup2 pr_data "user" "login").filter pyTruthy).toList
    ++ rlist.filterMap (fun r => (jlookup2 r "user" "login").filter pyTruthy)

/-- The cardinality of the amended participant set. -/
def specParticipantCountTruthy (pr_data : JVal) (rlist : List JVal) : Nat :=
  (specLoginsTruthy pr_data rlist).dedup.length

/-- An attempt outcome that is a rate-limit rejection: HTTP status 403
carrying rate-limit headers of the shape the glossary describes (the reset
header absent or numeric, so that `int(...)` at line 41 succeeds). -/
def isRateLimitRejection (o : AttemptOutcome) : Prop :=
  ∃ hd r, o = .httpError 403 hd ∧ parseHeaderInt hd.rateLimitReset = .ok r

/-! ## Concrete fixtures used by witnesses and counterexamples -/

def hdrNone : Headers := ⟨none, none, none⟩
def netAll403 : Net := fun _ _ => .httpError 403 hdrNone
def netConnFail : Net := fun _ _ => .connError
def clkZero : Clock := fun _ _ => 0
def prSummary1 : JVal := .jobj [("number", .jnum 1), ("url", .jstr "u")]
def netOkNoHeaders : Net := fun _ _ => .success hdrNone .jnull

/-- The spec's worked example: created `2024-01-01T00:00:00Z`, closed
`2024-01-01T02:30:00Z`, author `alice`. -/
def prDataEx : JVal := .jobj [("created_at", .jstr "2024-01-01T00:00:00Z"),
  ("closed_at", .jstr "2024-01-01T02:30:00Z"), ("changed_files", .jnum 1),
  ("additions", .jnum 2), ("deletions", .jnum 3), ("comments", .jnum 4),
  ("user", .jobj [("login", .jstr "alice")])]

/-- Reviews by `bob`, `alice` and `carol` (the spec's participant example). -/
def reviewsExList : List JVal := [.jobj [("user", .jobj [("login", .jstr "bob")])],
  .jobj [("user", .jobj [("login", .jstr "alice")])],
  .jobj [("user", .jobj [("login", .jstr "carol")])]]

def reviewsEx : JVal := .jarr reviewsExList

/-- The record `processPR` emits for `prDataEx`/`reviewsEx`. -/
def recEx : Record :=
  { repo_name := "octo/repo", pr_number := .jnum 1, num_files_changed := .jnum 1,
    lines_added := .jnum 2, lines_removed := .jnum 3,
    review_time_in_hours := ((9000 : Int) : ℚ) / 3600,
    pr_description_length := 0, num_comments := .jnum 4, num_participants := 3,
    pr_status := "closed" }

/-- A PR detail payload without an author, used by the participant-count
counterexample. -/
def prDataC4 : JVal := .jobj [("created_at", .jstr "2024-01-01T00:00:00Z"),
  ("closed_at", .jstr "2024-01-02T00:00:00Z"), ("changed_files", .jnum 1),
  ("additions", .jnum 2), ("deletions", .jnum 3), ("comments", .jnum 4)]

/-- One review whose author login is present but empty. -/
def reviewC4 : JVal := .jobj [("user", .jobj [("login", .jstr "")])]

/-- The record `processPR` emits for `prDataC4` / `[reviewC4]`. -/
def recC4 : Record :=
  { repo_name := "octo/repo", pr_number := .jnum 1, num_files_changed := .jnum 1,
    lines_added := .jnum 2, lines_removed := .jnum 3,
    review_time_in_hours := ((86400 : Int) : ℚ) / 3600,
    pr_description_length := 0, num_comments := .jnum 4, num_participants := 0,
    pr_status := "closed" }

/-! ## Lemmas about the Executor -/

theorem retryLoop_allReject (attempts : Nat → AttemptOutcome) (clock : Nat → ℚ)
    (n : Nat) :
    ∀ st : RetrySt,
      (∀ i, st.requests ≤ i → i < st.requests + n → isRateLimitRejection (attempts i)) →
      (retryLoop attempts clock n st).1 = .error .exhausted ∧
      (retryLoop attempts clock n st).2.requests = st.requests + n := by
  induction n with
  | zero => intro st _; exact ⟨rfl, rfl⟩
  | succ n ih =>
    intro st h
    obtain ⟨hd, r, ho, hr⟩ := h st.requests le_rfl (by omega)
    have hstep : retryLoop attempts clock (n + 1) st =
        retryLoop attempts clock n
          { requests := st.requests + 1, clockIdx := st.clockIdx + 1,
            sleeps := st.sleeps ++ [max ((r : ℚ) - clock st.clockIdx) 0 + 1] } := by
      rw [retryLoop, ho]
      simp [hr]
    rw [hstep]
    have h2 := ih
      { requests := st.requests + 1, clockIdx := st.clockIdx + 1,
        sleeps := st.sleeps ++ [max ((r : ℚ) - clock st.clockIdx) 0 + 1] }
      (fun i h1 h2 => by
        have h1' : st.requests + 1 ≤ i := h1
        have h2' : i < st.requests + 1 + n := h2
        exact h i (by omega) (by omega))
    refine ⟨h2.1, ?_⟩
    have e : (retryLoop attempts clock n
        { requests := st.requests + 1, clockIdx := st.clockIdx + 1,
          sleeps := st.sleeps ++ [max ((r : ℚ) - clock st.clockIdx) 0 + 1] }).2.requests
        = st.requests + 1 + n := h2.2
    rw [e]; omega

/-- C2: with every attempt rejected by the rate limit, the executor raises
the retry-exhaustion `Exception` after exactly `MAX_RETRIES` (3) GETs. -/
theorem C2_retry_exhaustion (attempts : Nat → AttemptOutcome) (clock : Nat → ℚ)
    (h : ∀ i, i < MAX_RETRIES → isRateLimitRejection (attempts i)) :
    (fazer_requisicao_com_retry attempts clock MAX_RETRIES).1 = .error .exhausted ∧
    (fazer_requisicao_com_retry attempts clock MAX_RETRIES).2.requests = MAX_RETRIES := by
  have h2 := retryLoop_allReject attempts clock MAX_RETRIES ⟨0, 0, []⟩
    (fun i h1 h2 => h i (by simpa using h2))
  exact ⟨h2.1, by simpa using h2.2⟩

theorem C2_retry_exhaustion_witness :
    (fazer_requisicao_com_retry (netAll403 "u") (clkZero "u") MAX_RETRIES).1
        = .error .exhausted ∧
    (fazer_requisicao_com_retry (netAll403 "u") (clkZero "u") MAX_RETRIES).2.requests
        = MAX_RETRIES :=
  C2_retry_exhaustion _ _ (fun _ _ => ⟨hdrNone, 0, rfl, rfl⟩)

/-- C10: a successful response with no `X-RateLimit-Remaining` header is
treated as remaining quota `0 < 10`: the executor records exactly one pause
of `max(reset − now, 0) + 1` seconds and returns the response; when the
reset header is also absent (and the clock is non-negative) the pause is 1
second. -/
theorem C10_missing_remaining_pauses (attempts : Nat → AttemptOutcome)
    (clock : Nat → ℚ) (n : Nat) (st : RetrySt) (hd : Headers) (body : JVal) (r : Int)
    (hatt : attempts st.requests = .success hd body)
    (hrem : hd.rateLimitRemaining = none)
    (hres : parseHeaderInt hd.rateLimitReset = .ok r) :
    retryLoop attempts clock (n + 1) st =
      (.ok ⟨hd, body⟩,
        ⟨st.requests + 1, st.clockIdx + 1,
          st.sleeps ++ [max ((r : ℚ) - clock st.clockIdx) 0 + 1]⟩) ∧
    (hd.rateLimitReset = none → 0 ≤ clock st.clockIdx →
      max ((r : ℚ) - clock st.clockIdx) 0 + 1 = 1) := by
  constructor
  · rw [retryLoop, hatt]
    dsimp only
    rw [show parseHeaderInt hd.rateLimitRemaining = Except.ok 0 from by rw [hrem]; rfl]
    dsimp only
    rw [hres]
    dsimp only
    norm_num
  · intro h0 hc
    rw [h0] at hres
    have hr0 : r = 0 := by
      simpa [parseHeaderInt] using hres.symm
    subst hr0
    have hle : (0 : ℚ) - clock st.clockIdx ≤ 0 := by linarith
    rw [Int.cast_zero, max_eq_right hle]
    norm_num

/-! ## Lemmas about the estimator and the Discoverer -/

/-- C9: the closed-PR estimator returns `0` whenever the listing request
fails or, on success, the `Link` header is absent or its extracted last-page
field does not parse as an integer; `0` is below `MIN_PRS_COUNT`, so such a
repository never passes the Discoverer's filter, and the estimator itself
never raises. -/
theorem C9_estimator_returns_zero (net : Net) (clock : Clock) (repo_name : String)
    (h : ∀ response,
        (fazer_requisicao_com_retry
            (net (BASE_URL ++ "/repos/" ++ repo_name ++ "/pulls?state=closed&per_page=1"))
            (clock (BASE_URL ++ "/repos/" ++ repo_name ++ "/pulls?state=closed&per_page=1"))
            MAX_RETRIES).1 = .ok response →
          response.headers.link = none ∨
            pyIntOfString (linkExtract ((response.headers.link).getD "")) = none) :
    obter_numero_prs_fechados net clock repo_name = 0 ∧ (0 : Int) < MIN_PRS_COUNT := by
  refine ⟨?_, by norm_num [MIN_PRS_COUNT]⟩
  unfold obter_numero_prs_fechados
  dsimp only
  cases hr : (fazer_requisicao_com_retry
      (net (BASE_URL ++ "/repos/" ++ repo_name ++ "/pulls?state=closed&per_page=1"))
      (clock (BASE_URL ++ "/repos/" ++ repo_name ++ "/pulls?state=closed&per_page=1"))
      MAX_RETRIES).1 with
  | error e => rfl
  | ok response =>
    have h1 : pyIntOfString (linkExtract ((response.headers.link).getD "")) = none := by
      rcases h response hr with h1 | h1
      · rw [h1]; rfl
      · exact h1
    dsimp only
    by_cases he : (linkExtract ((response.headers.link).getD "")).isEmpty
    · rw [if_pos he]
    · rw [if_neg he, h1]

theorem C9_estimator_returns_zero_witness :
    obter_numero_prs_fechados netConnFail clkZero "octo/repo" = 0 ∧
      (0 : Int) < MIN_PRS_COUNT :=
  C9_estimator_returns_zero netConnFail clkZero "octo/repo"
    (fun response hresp => by
      have hc : (fazer_requisicao_com_retry
          (netConnFail (BASE_URL ++ "/repos/" ++ "octo/repo" ++ "/pulls?state=closed&per_page=1"))
          (clkZero (BASE_URL ++ "/repos/" ++ "octo/repo" ++ "/pulls?state=closed&per_page=1"))
          MAX_RETRIES).1 = .error .connError := rfl
      rw [hc] at hresp
      exact Except.noConfusion hresp)

/-! ## Lemmas about the Collector's processing -/

/-- C7: a PR detail paired with an empty review list is rejected. -/
theorem C7_empty_reviews_rejected (repo_name : String) (pr_number pr_data : JVal) :
    processPR repo_name pr_number pr_data (.jarr []) = .ok none := rfl

/-- C5: whenever the difference between the closing and creation timestamps
is below one hour, the pair is rejected, whatever the review list holds. -/
theorem C5_short_review_time_rejected (repo_name : String)
    (pr_number pr_data reviews : JVal) (nRev : Nat) (cv dv : JVal) (t1 t2 : Int)
    (hlen : pyLen reviews = .ok nRev)
    (hcv : pyIndex pr_data "created_at" = .ok cv)
    (ht1 : strptimeGH cv = .ok t1)
    (hdv : pyIndex pr_data "closed_at" = .ok dv)
    (ht2 : strptimeGH dv = .ok t2)
    (hlt : ((t2 - t1 : Int) : ℚ) / 3600 < 1) :
    processPR repo_name pr_number pr_data reviews = .ok none := by
  unfold processPR
  rw [hlen]
  dsimp only
  by_cases h0 : nRev = 0
  · simp [h0]
  · rw [if_neg (by simpa using h0)]
    rw [hcv]; dsimp only
    rw [ht1]; dsimp only
    rw [hdv]; dsimp only
    rw [ht2]; dsimp only
    rw [if_pos hlt]

theorem C5_short_review_time_rejected_witness :
    processPR "octo/repo" (.jnum 7)
      (.jobj [("created_at", .jstr "2024-01-01T00:00:00Z"),
              ("closed_at", .jstr "2024-01-01T00:30:00Z")])
      (.jarr [.jobj [("user", .jobj [("login", .jstr "bob")])]])
      = .ok none :=
  C5_short_review_time_rejected "octo/repo" (.jnum 7) _ _ 1
    (.jstr "2024-01-01T00:00:00Z") (.jstr "2024-01-01T00:30:00Z")
    (DT.toSeconds ⟨2024, 1, 1, 0, 0, 0⟩) (DT.toSeconds ⟨2024, 1, 1, 0, 30, 0⟩)
    rfl rfl rfl rfl rfl (by norm_num [DT.toSeconds, ordinalDays, daysBeforeMonth])

theorem C10_missing_remaining_pauses_witness :
    retryLoop (netOkNoHeaders "u") (clkZero "u") 1 ⟨0, 0, []⟩ =
      (.ok ⟨hdrNone, .jnull⟩,
        ⟨1, 1, [max ((0 : ℚ) - clkZero "u" 0) 0 + 1]⟩) ∧
    (hdrNone.rateLimitReset = none → 0 ≤ clkZero "u" 0 →
      max (((0 : Int) : ℚ) - clkZero "u" 0) 0 + 1 = 1) := by
  have h := C10_missing_remaining_pauses (netOkNoHeaders "u") (clkZero "u") 0
    ⟨0, 0, []⟩ hdrNone .jnull 0 rfl rfl rfl
  exact ⟨by simpa using h.1, h.2⟩

/-! ## The Collector's exception boundary -/

/-- C1 counterexample: when every attempt at fetching the PR detail is
rejected by the rate limit, the retry wrapper's exhaustion `Exception`
escapes `coletar_dados_pr` — it is neither a `requests.RequestException` nor
a `KeyError`, so the handlers at lines 98–103 do not catch it and the
Collector does raise (it does not return absent). -/
theorem C1_counterexample :
    coletar_dados_pr netAll403 clkZero "octocat/hello" prSummary1
      = .error .exhausted := by
  decide

/-- C1 amended: given a PR summary carrying its `number` and `url` fields,
every `requests.RequestException` (transport failure) and every `KeyError`
(missing expected field) raised while fetching or reading the detail and
review payloads is caught, logged and turned into an absent result; any
exception that does escape the Collector is of neither kind (e.g. the
retry-exhaustion `Exception`). -/
theorem C1_request_failures_give_none (net : Net) (clock : Clock)
    (repo_name : String) (pr : JVal) (num urlV : JVal)
    (hnum : pyIndex pr "number" = .ok num)
    (hurl : pyIndex pr "url" = .ok urlV) :
    (∀ e, coletar_dados_pr net clock repo_name pr = .error e →
      e.isRequestException = false ∧ e.isKeyError = false) ∧
    (∀ e, collectBody net clock repo_name num (jvalToStr urlV) = .error e →
      (e.isRequestException = true ∨ e.isKeyError = true) →
      coletar_dados_pr net clock repo_name pr = .ok none) := by
  have hc : coletar_dados_pr net clock repo_name pr
      = handleCollect (collectBody net clock repo_name num (jvalToStr urlV)) := by
    unfold coletar_dados_pr
    rw [hnum, hurl]
  constructor
  · intro e he
    rw [hc] at he
    cases hb : collectBody net clock repo_name num (jvalToStr urlV) with
    | ok r =>
      rw [hb] at he
      exact absurd he (by simp [handleCollect])
    | error e2 =>
      rw [hb] at he
      unfold handleCollect at he
      dsimp only at he
      by_cases hre : e2.isRequestException || e2.isKeyError
      · rw [if_pos hre] at he
        exact absurd he (by simp)
      · rw [if_neg hre] at he
        injection he with he2
        subst he2
        simp only [Bool.or_eq_true, not_or, Bool.not_eq_true] at hre
        exact hre
  · intro e he hreq
    rw [hc]
    unfold handleCollect
    rw [he]
    dsimp only
    rw [if_pos (by rcases hreq with h1 | h1 <;> simp [h1])]

theorem C1_request_failures_give_none_witness :
    coletar_dados_pr netAll403 clkZero "octocat/hello" prSummary1
        = .error .exhausted ∧
    Exc.exhausted.isRequestException = false ∧ Exc.exhausted.isKeyError = false := by
  have h := C1_request_failures_give_none netAll403 clkZero "octocat/hello" prSummary1
    (.jnum 1) (.jstr "u") rfl rfl
  have hc : coletar_dados_pr netAll403 clkZero "octocat/hello" prSummary1
      = .error .exhausted := by decide
  exact ⟨hc, h.1 .exhausted hc⟩

/-! ## Inversion of a successful `processPR` run -/

theorem processPR_ok_some_inv {repo_name : String} {pr_number pr_data reviews : JVal}
    {rec : Record} (h : processPR repo_name pr_number pr_data reviews = .ok (some rec)) :
    ∃ (nRev : Nat) (createdV closedV : JVal) (created_at closed_at : Int)
      (p0 rlist participants : List JVal) (mergedO : Option JVal)
      (cf la lr : JVal) (bodyO : Option JVal) (blen : Nat) (cm : JVal),
      pyLen reviews = .ok nRev ∧ ¬((nRev == 0) = true) ∧
      pyIndex pr_data "created_at" = .ok createdV ∧
      strptimeGH createdV = .ok created_at ∧
      pyIndex pr_data "closed_at" = .ok closedV ∧
      strptimeGH closedV = .ok closed_at ∧
      ¬(((closed_at - created_at : Int) : ℚ) / 3600 < 1) ∧
      authorParticipants pr_data = .ok p0 ∧
      pyIterE reviews = .ok rlist ∧
      reviewParticipants rlist p0 = .ok participants ∧
      pyGet pr_data "merged_at" = .ok mergedO ∧
      pyIndex pr_data "changed_files" = .ok cf ∧
      pyIndex pr_data "additions" = .ok la ∧
      pyIndex pr_data "deletions" = .ok lr ∧
      pyGet pr_data "body" = .ok bodyO ∧
      pyLen (orEmptyStr bodyO) = .ok blen ∧
      pyIndex pr_data "comments" = .ok cm ∧
      rec = { repo_name := repo_name, pr_number := pr_number,
              num_files_changed := cf, lines_added := la, lines_removed := lr,
              review_time_in_hours := ((closed_at - created_at : Int) : ℚ) / 3600,
              pr_description_length := blen, num_comments := cm,
              num_participants := participants.length,
              pr_status := statusOf mergedO } := by
  unfold processPR at h
  dsimp only at h
  repeat' split at h
  all_goals try (exfalso; cases h; done)
  cases h
  exact ⟨_, _, _, _, _, _, _, _, _, _, _, _, _, _, _,
    by assumption, (by assumption), by assumption, (by assumption), by assumption,
    (by assumption), by assumption, (by assumption), by assumption, (by assumption),
    by assumption, (by assumption), by assumption, (by assumption), by assumption,
    (by assumption), by assumption, rfl⟩

/-- C6: every emitted record's review time is the exact wall-clock
difference between the parsed closing and creation timestamps, in fractional
hours. -/
theorem C6_review_time_exact (repo_name : String) (pr_number pr_data reviews : JVal)
    (rec : Record)
    (h : processPR repo_name pr_number pr_data reviews = .ok (some rec)) :
    ∃ (createdV closedV : JVal) (created_at closed_at : Int),
      pyIndex pr_data "created_at" = .ok createdV ∧
      strptimeGH createdV = .ok created_at ∧
      pyIndex pr_data "closed_at" = .ok closedV ∧
      strptimeGH closedV = .ok closed_at ∧
      rec.review_time_in_hours = ((closed_at - created_at : Int) : ℚ) / 3600 := by
  obtain ⟨nRev, cV, dV, t1, t2, p0, rl, ps, mo, cf, la, lr, bo, bl, cm,
    h1, h2, h3, h4, h5, h6, h7, h8, h9, h10, h11, h12, h13, h14, h15, h16, h17,
    hrec⟩ := processPR_ok_some_inv h
  exact ⟨cV, dV, t1, t2, h3, h4, h5, h6, by rw [hrec]⟩

/-- `Rat` normalization is not kernel-reducible (it runs `Nat.gcd`), so the
concrete runs of `processPR` are evaluated symbolically: every step reduces by
`rfl` except the rational comparison at the one-hour guard and the final
record equality, which `norm_num` settles. -/
theorem processPR_prDataEx_eval :
    processPR "octo/repo" (.jnum 1) prDataEx reviewsEx = .ok (some recEx) := by
  unfold processPR
  rw [show pyLen reviewsEx = .ok 3 from rfl]
  dsimp only
  rw [if_neg (by decide)]
  rw [show pyIndex prDataEx "created_at" = .ok (.jstr "2024-01-01T00:00:00Z") from rfl]
  dsimp only
  rw [show strptimeGH (.jstr "2024-01-01T00:00:00Z")
      = .ok (DT.toSeconds ⟨2024, 1, 1, 0, 0, 0⟩) from by decide]
  dsimp only
  rw [show pyIndex prDataEx "closed_at" = .ok (.jstr "2024-01-01T02:30:00Z") from rfl]
  dsimp only
  rw [show strptimeGH (.jstr "2024-01-01T02:30:00Z")
      = .ok (DT.toSeconds ⟨2024, 1, 1, 2, 30, 0⟩) from by decide]
  dsimp only
  rw [show (DT.toSeconds ⟨2024, 1, 1, 2, 30, 0⟩ - DT.toSeconds ⟨2024, 1, 1, 0, 0, 0⟩ : Int)
      = 9000 from by decide]
  rw [if_neg (by norm_num)]
  rw [show authorParticipants prDataEx = .ok [.jstr "alice"] from by decide]
  dsimp only
  rw [show pyIterE reviewsEx = .ok reviewsExList from rfl]
  dsimp only
  rw [show reviewParticipants reviewsExList [.jstr "alice"]
      = .ok [.jstr "alice", .jstr "bob", .jstr "carol"] from by decide]
  dsimp only
  rw [show pyGet prDataEx "merged_at" = .ok none from rfl]
  dsimp only
  rw [show pyIndex prDataEx "changed_files" = .ok (.jnum 1) from rfl]
  dsimp only
  rw [show pyIndex prDataEx "additions" = .ok (.jnum 2) from rfl]
  dsimp only
  rw [show pyIndex prDataEx "deletions" = .ok (.jnum 3) from rfl]
  dsimp only
  rw [show pyGet prDataEx "body" = .ok none from rfl]
  dsimp only
  rw [show pyLen (orEmptyStr none) = .ok 0 from rfl]
  dsimp only
  rw [show pyIndex prDataEx "comments" = .ok (.jnum 4) from rfl]
  dsimp only
  simp [recEx, statusOf, optD, pyTruthy]

theorem C6_review_time_exact_witness :
    processPR "octo/repo" (.jnum 1) prDataEx reviewsEx = .ok (some recEx) ∧
    recEx.review_time_in_hours = 5 / 2 ∧
    (∃ (createdV closedV : JVal) (created_at closed_at : Int),
      pyIndex prDataEx "created_at" = .ok createdV ∧
      strptimeGH createdV = .ok created_at ∧
      pyIndex prDataEx "closed_at" = .ok closedV ∧
      strptimeGH closedV = .ok closed_at ∧
      recEx.review_time_in_hours = ((closed_at - created_at : Int) : ℚ) / 3600) := by
  have hp := processPR_prDataEx_eval
  exact ⟨hp, by norm_num [recEx], C6_review_time_exact _ _ _ _ _ hp⟩

/-! ## Characterizing the participant set -/

theorem addUnique_nodup {xs : List JVal} (h : xs.Nodup) (v : JVal) :
    (addUnique xs v).Nodup := by
  unfold addUnique
  split
  · exact h
  · next hv => simp [List.nodup_append, h, hv]

theorem addUnique_mem {xs : List JVal} {v w : JVal} :
    w ∈ addUnique xs v ↔ w ∈ xs ∨ w = v := by
  unfold addUnique
  split
  · next hv =>
    constructor
    · exact fun hw => Or.inl hw
    · rintro (hw | rfl)
      · exact hw
      · exact hv
  · simp

theorem authorParticipants_ok {pr_data : JVal} {p0 : List JVal}
    (h : authorParticipants pr_data = .ok p0) :
    p0 = ((jlookup2 pr_data "user" "login").filter pyTruthy).toList := by
  cases pr_data with
  | jobj fs =>
    unfold authorParticipants at h
    rw [show pyGet (JVal.jobj fs) "user" = .ok (fs.lookup "user") from rfl] at h
    dsimp only at h
    unfold jlookup2
    dsimp only
    cases hu : fs.lookup "user" with
    | none =>
      rw [hu] at h
      rw [if_neg (by simp [optD, pyTruthy])] at h
      injection h with h1
      simp [← h1]
    | some u =>
      rw [hu] at h
      dsimp only [optD, Option.getD] at h
      by_cases ht : pyTruthy u
      · rw [if_pos ht] at h
        cases u with
        | jobj gs =>
          rw [show pyGet (JVal.jobj gs) "login" = .ok (gs.lookup "login") from rfl] at h
          dsimp only at h
          dsimp only
          cases hl : gs.lookup "login" with
          | none =>
            rw [hl] at h
            rw [if_neg (by simp [optD, pyTruthy])] at h
            injection h with h1
            simp [← h1]
          | some l =>
            rw [hl] at h
            dsimp only [optD, Option.getD] at h
            by_cases htl : pyTruthy l
            · rw [if_pos htl] at h
              unfold pyIndex at h
              dsimp only at h
              rw [hl] at h
              dsimp only at h
              injection h with h1
              cases l <;> simp_all [addUnique, Option.filter, pyTruthy]
            · rw [if_neg htl] at h
              injection h with h1
              cases l <;> simp_all [Option.filter, pyTruthy]
        | jnull => simp [pyTruthy] at ht
        | jbool b => exact absurd h (by simp [pyGet])
        | jnum n => exact absurd h (by simp [pyGet])
        | jstr str => exact absurd h (by simp [pyGet])
        | jarr xs => exact absurd h (by simp [pyGet])
      · rw [if_neg ht] at h
        injection h with h1
        cases u <;> simp_all [pyTruthy, Option.filter, List.isEmpty_iff]
  | jnull => exact absurd h (by simp [authorParticipants, pyGet])
  | jbool b => exact absurd h (by simp [authorParticipants, pyGet])
  | jnum n => exact absurd h (by simp [authorParticipants, pyGet])
  | jstr str => exact absurd h (by simp [authorParticipants, pyGet])
  | jarr xs => exact absurd h (by simp [authorParticipants, pyGet])

theorem jlookup2_none_nouser {fs : List (String × JVal)}
    (hu : List.lookup "user" fs = none) :
    jlookup2 (JVal.jobj fs) "user" "login" = none := by
  unfold jlookup2
  dsimp only
  rw [hu]

theorem jlookup2_none_nologin {fs gs : List (String × JVal)}
    (hu : List.lookup "user" fs = some (JVal.jobj gs))
    (hl : List.lookup "login" gs = none) :
    jlookup2 (JVal.jobj fs) "user" "login" = none := by
  unfold jlookup2
  dsimp only
  rw [hu]
  dsimp only
  rw [hl]

theorem jlookup2_null_login {fs gs : List (String × JVal)}
    (hu : List.lookup "user" fs = some (JVal.jobj gs))
    (hl : List.lookup "login" gs = some JVal.jnull) :
    jlookup2 (JVal.jobj fs) "user" "login" = none := by
  unfold jlookup2
  dsimp only
  rw [hu]
  dsimp only
  rw [hl]

theorem jlookup2_some {fs gs : List (String × JVal)} {l : JVal}
    (hu : List.lookup "user" fs = some (JVal.jobj gs))
    (hl : List.lookup "login" gs = some l) (hln : l ≠ JVal.jnull) :
    jlookup2 (JVal.jobj fs) "user" "login" = some l := by
  unfold jlookup2
  dsimp only
  rw [hu]
  dsimp only
  rw [hl]
  cases l with
  | jnull => exact absurd rfl hln
  | jbool b => rfl
  | jnum n => rfl
  | jstr s => rfl
  | jarr xs => rfl
  | jobj o => rfl

theorem jlookup2_user_not_obj {fs : List (String × JVal)} {u : JVal}
    (hu : List.lookup "user" fs = some u) (hno : ∀ gs, u ≠ JVal.jobj gs) :
    jlookup2 (JVal.jobj fs) "user" "login" = none := by
  unfold jlookup2
  dsimp only
  rw [hu]
  cases u with
  | jobj gs => exact absurd rfl (hno gs)
  | jnull => rfl
  | jbool b => rfl
  | jnum n => rfl
  | jstr s => rfl
  | jarr xs => rfl

set_option maxHeartbeats 1000000 in
theorem reviewParticipants_ok : ∀ (rlist acc out : List JVal),
    reviewParticipants rlist acc = .ok out → acc.Nodup →
    out.Nodup ∧ ∀ w, (w ∈ out ↔ w ∈ acc ∨
      w ∈ rlist.filterMap (fun r => (jlookup2 r "user" "login").filter pyTruthy)) := by
  intro rlist
  induction rlist with
  | nil =>
    intro acc out h hacc
    injection h with h1
    subst h1
    exact ⟨hacc, by simp⟩
  | cons review rest ih =>
    intro acc out h hacc
    unfold reviewParticipants at h
    cases review with
    | jobj fs =>
      rw [show pyGet (JVal.jobj fs) "user" = .ok (fs.lookup "user") from rfl] at h
      dsimp only at h
      cases hu : fs.lookup "user" with
      | none =>
        rw [hu] at h
        rw [if_neg (by simp [optD, pyTruthy])] at h
        obtain ⟨hnd, hmem⟩ := ih acc out h hacc
        refine ⟨hnd, fun w => ?_⟩
        rw [hmem w]
        have hf : (jlookup2 (JVal.jobj fs) "user" "login").filter pyTruthy = none := by
          rw [jlookup2_none_nouser hu]
          rfl
        simp only [List.filterMap_cons, hf]
      | some u =>
        rw [hu] at h
        dsimp only [optD, Option.getD] at h
        by_cases ht : pyTruthy u
        · rw [if_pos ht] at h
          unfold pyIndex at h
          dsimp only at h
          rw [hu] at h
          dsimp only at h
          cases u with
          | jobj gs =>
            dsimp only at h
            cases hl : gs.lookup "login" with
            | none =>
              rw [hl] at h
              dsimp only at h
              exact absurd h (by simp)
            | some l =>
              rw [hl] at h
              dsimp only at h
              by_cases htl : pyTruthy l
              · rw [if_pos htl] at h
                obtain ⟨hnd, hmem⟩ := ih (addUnique acc l) out h (addUnique_nodup hacc l)
                refine ⟨hnd, fun w => ?_⟩
                rw [hmem w]
                have hln : l ≠ JVal.jnull := by
                  intro hh
                  rw [hh] at htl
                  simp [pyTruthy] at htl
                have hf : (jlookup2 (JVal.jobj fs) "user" "login").filter pyTruthy
                    = some l := by
                  rw [jlookup2_some hu hl hln]
                  simp [Option.filter, htl]
                rw [addUnique_mem]
                simp only [List.filterMap_cons, hf, List.mem_cons]
                tauto
              · rw [if_neg htl] at h
                obtain ⟨hnd, hmem⟩ := ih acc out h hacc
                refine ⟨hnd, fun w => ?_⟩
                rw [hmem w]
                have hf : (jlookup2 (JVal.jobj fs) "user" "login").filter pyTruthy
                    = none := by
                  by_cases hln : l = JVal.jnull
                  · rw [hln] at hl
                    rw [jlookup2_null_login hu hl]
                    rfl
                  · rw [jlookup2_some hu hl hln]
                    simp [Option.filter, htl]
                simp only [List.filterMap_cons, hf]
          | jnull => simp [pyTruthy] at ht
          | jbool b => exact absurd h (by simp)
          | jnum n => exact absurd h (by simp)
          | jstr str => exact absurd h (by simp)
          | jarr xs => exact absurd h (by simp)
        · rw [if_neg ht] at h
          obtain ⟨hnd, hmem⟩ := ih acc out h hacc
          refine ⟨hnd, fun w => ?_⟩
          rw [hmem w]
          have hf : (jlookup2 (JVal.jobj fs) "user" "login").filter pyTruthy = none := by
            cases u with
            | jobj gs =>
              have hgs : gs = [] := by
                simpa [pyTruthy, List.isEmpty_iff] using ht
              subst hgs
              rw [jlookup2_none_nologin hu rfl]
              rfl
            | jnull => rw [jlookup2_user_not_obj hu (fun gs => nofun)]; rfl
            | jbool b => rw [jlookup2_user_not_obj hu (fun gs => nofun)]; rfl
            | jnum n => rw [jlookup2_user_not_obj hu (fun gs => nofun)]; rfl
            | jstr str => rw [jlookup2_user_not_obj hu (fun gs => nofun)]; rfl
            | jarr xs => rw [jlookup2_user_not_obj hu (fun gs => nofun)]; rfl
          simp only [List.filterMap_cons, hf]
    | jnull => exact absurd h (by simp [pyGet])
    | jbool b => exact absurd h (by simp [pyGet])
    | jnum n => exact absurd h (by simp [pyGet])
    | jstr str => exact absurd h (by simp [pyGet])
    | jarr xs => exact absurd h (by simp [pyGet])

theorem dedup_length_eq_of_mem_iff {l1 l2 : List JVal} (h : ∀ w, w ∈ l1 ↔ w ∈ l2) :
    l1.dedup.length = l2.dedup.length := by
  rw [← List.card_toFinset, ← List.card_toFinset]
  congr 1
  ext a
  simp [List.mem_toFinset, h a]

/-- Symbolic evaluation of `processPR` on the empty-login counterexample
input (see `processPR_prDataEx_eval` for why `decide` cannot be used). -/
theorem processPR_prDataC4_eval :
    processPR "octo/repo" (.jnum 1) prDataC4 (.jarr [reviewC4]) = .ok (some recC4) := by
  unfold processPR
  rw [show pyLen (JVal.jarr [reviewC4]) = .ok 1 from rfl]
  dsimp only
  rw [if_neg (by decide)]
  rw [show pyIndex prDataC4 "created_at" = .ok (.jstr "2024-01-01T00:00:00Z") from rfl]
  dsimp only
  rw [show strptimeGH (.jstr "2024-01-01T00:00:00Z")
      = .ok (DT.toSeconds ⟨2024, 1, 1, 0, 0, 0⟩) from by decide]
  dsimp only
  rw [show pyIndex prDataC4 "closed_at" = .ok (.jstr "2024-01-02T00:00:00Z") from rfl]
  dsimp only
  rw [show strptimeGH (.jstr "2024-01-02T00:00:00Z")
      = .ok (DT.toSeconds ⟨2024, 1, 2, 0, 0, 0⟩) from by decide]
  dsimp only
  rw [show (DT.toSeconds ⟨2024, 1, 2, 0, 0, 0⟩ - DT.toSeconds ⟨2024, 1, 1, 0, 0, 0⟩ : Int)
      = 86400 from by decide]
  rw [if_neg (by norm_num)]
  rw [show authorParticipants prDataC4 = .ok [] from by decide]
  dsimp only
  rw [show pyIterE (JVal.jarr [reviewC4]) = .ok [reviewC4] from rfl]
  dsimp only
  rw [show reviewParticipants [reviewC4] [] = .ok [] from by decide]
  dsimp only
  rw [show pyGet prDataC4 "merged_at" = .ok none from rfl]
  dsimp only
  rw [show pyIndex prDataC4 "changed_files" = .ok (.jnum 1) from rfl]
  dsimp only
  rw [show pyIndex prDataC4 "additions" = .ok (.jnum 2) from rfl]
  dsimp only
  rw [show pyIndex prDataC4 "deletions" = .ok (.jnum 3) from rfl]
  dsimp only
  rw [show pyGet prDataC4 "body" = .ok none from rfl]
  dsimp only
  rw [show pyLen (orEmptyStr none) = .ok 0 from rfl]
  dsimp only
  rw [show pyIndex prDataC4 "comments" = .ok (.jnum 4) from rfl]
  dsimp only
  simp [recC4, statusOf, optD, pyTruthy]

/-- C4 counterexample: a review whose author login is present but empty
(`""`).  The record is emitted with participant count `0`, while the set of
*present* logins (the claim's set) has cardinality `1`: the code counts only
truthy logins, so the claim as stated fails. -/
theorem C4_counterexample :
    processPR "octo/repo" (.jnum 1) prDataC4 (.jarr [reviewC4]) = .ok (some recC4) ∧
    recC4.num_participants = 0 ∧
    specParticipantCountPresent prDataC4 [reviewC4] = 1 := by
  refine ⟨processPR_prDataC4_eval, rfl, ?_⟩
  decide

/-- C4 amended: the emitted record's participant count equals the
cardinality of the set containing the PR author's login and every review
author's login, counting only logins that are present *and truthy* (in
particular non-empty), each at most once. -/
theorem C4_participant_count (repo_name : String)
    (pr_number pr_data reviews : JVal) (rec : Record) (rlist : List JVal)
    (h : processPR repo_name pr_number pr_data reviews = .ok (some rec))
    (hiter : pyIterE reviews = .ok rlist) :
    rec.num_participants = specParticipantCountTruthy pr_data rlist := by
  obtain ⟨nRev, cV, dV, t1, t2, p0, rl, ps, mo, cf, la, lr, bo, bl, cm,
    h1, h2, h3, h4, h5, h6, h7, h8, h9, h10, h11, h12, h13, h14, h15, h16, h17,
    hrec⟩ := processPR_ok_some_inv h
  rw [hiter] at h9
  injection h9 with h9
  subst h9
  have hauth := authorParticipants_ok h8
  have hp0nd : p0.Nodup := by
    rw [hauth]
    cases (jlookup2 pr_data "user" "login").filter pyTruthy <;> simp
  obtain ⟨hnd, hmem⟩ := reviewParticipants_ok rlist p0 ps h10 hp0nd
  have hcount : rec.num_participants = ps.length := by rw [hrec]
  rw [hcount]
  unfold specParticipantCountTruthy
  have hm : ∀ w, w ∈ ps ↔ w ∈ specLoginsTruthy pr_data rlist := by
    intro w
    rw [hmem w, hauth]
    unfold specLoginsTruthy
    simp [List.mem_append]
  calc ps.length = ps.dedup.length := by rw [List.Nodup.dedup hnd]
    _ = (specLoginsTruthy pr_data rlist).dedup.length := dedup_length_eq_of_mem_iff hm

theorem C4_participant_count_witness :
    processPR "octo/repo" (.jnum 1) prDataEx reviewsEx = .ok (some recEx) ∧
    recEx.num_participants = specParticipantCountTruthy prDataEx reviewsExList ∧
    recEx.num_participants = 3 :=
  ⟨processPR_prDataEx_eval,
    C4_participant_count "octo/repo" (.jnum 1) prDataEx reviewsEx recEx reviewsExList
      processPR_prDataEx_eval rfl, rfl⟩

/-! ## The Discoverer's filter -/

theorem buscarScan_qualifies (net : Net) (clock : Clock) (quantidade : Nat) :
    ∀ (items repos out : List JVal),
      buscarScan net clock quantidade items repos = .ok out →
      (∀ r ∈ repos, repoQualifies net clock r) →
      ∀ r ∈ out, repoQualifies net clock r := by
  intro items
  induction items with
  | nil =>
    intro repos out h hrep
    injection h with h1
    subst h1
    exact hrep
  | cons item rest ih =>
    intro repos out h hrep
    unfold buscarScan at h
    cases hfn : pyIndex item "full_name" with
    | error e => rw [hfn] at h; cases h
    | ok v =>
      rw [hfn] at h
      dsimp only at h
      by_cases hc : MIN_PRS_COUNT ≤ obter_numero_prs_fechados net clock (jvalToStr v)
      · rw [if_pos hc] at h
        have hrep1 : ∀ r ∈ repos ++ [item], repoQualifies net clock r := by
          intro r hr
          rcases List.mem_append.mp hr with hr | hr
          · exact hrep r hr
          · rcases List.mem_singleton.mp hr with rfl
            exact ⟨v, hfn, hc⟩
        by_cases hq : quantidade ≤ (repos ++ [item]).length
        · rw [if_pos hq] at h
          injection h with h1
          subst h1
          exact hrep1
        · rw [if_neg hq] at h
          exact ih (repos ++ [item]) out h hrep1
      · rw [if_neg hc] at h
        by_cases hq : quantidade ≤ repos.length
        · rw [if_pos hq] at h
          injection h with h1
          subst h1
          exact hrep
        · rw [if_neg hq] at h
          exact ih repos out h hrep

theorem buscarTryBody_qualifies (net : Net) (clock : Clock) (quantidade page : Nat)
    (repos out : List JVal)
    (h : buscarTryBody net clock quantidade page repos = .ok out)
    (hrep : ∀ r ∈ repos, repoQualifies net clock r) :
    ∀ r ∈ out, repoQualifies net clock r := by
  unfold buscarTryBody at h
  repeat' split at h
  all_goals try (cases h; done)
  exact buscarScan_qualifies net clock quantidade _ repos out h hrep

theorem buscarLoop_spec (net : Net) (clock : Clock) (quantidade : Nat) :
    ∀ (fuel page : Nat) (repos out : List JVal),
      buscarLoop net clock quantidade fuel page repos = .ok out →
      (∀ r ∈ repos, repoQualifies net clock r) →
      out.length ≤ quantidade ∧ ∀ r ∈ out, repoQualifies net clock r := by
  intro fuel
  induction fuel with
  | zero =>
    intro page repos out h hrep
    injection h with h1
    subst h1
    refine ⟨by rw [List.length_take]; omega, fun r hr => hrep r (List.take_subset _ _ hr)⟩
  | succ fuel ih =>
    intro page repos out h hrep
    unfold buscarLoop at h
    by_cases hlen : repos.length < quantidade
    · rw [if_pos hlen] at h
      cases hb : buscarTryBody net clock quantidade page repos with
      | error e =>
        rw [hb] at h
        dsimp only at h
        by_cases hre : e.isRequestException
        · rw [if_pos hre] at h
          injection h with h1
          subst h1
          refine ⟨by rw [List.length_take]; omega,
            fun r hr => hrep r (List.take_subset _ _ hr)⟩
        · rw [if_neg hre] at h
          cases h
      | ok repos1 =>
        rw [hb] at h
        dsimp only at h
        exact ih (page + 1) repos1 out h
          (buscarTryBody_qualifies net clock quantidade page repos repos1 hb hrep)
    · rw [if_neg hlen] at h
      injection h with h1
      subst h1
      refine ⟨by rw [List.length_take]; omega,
        fun r hr => hrep r (List.take_subset _ _ hr)⟩

/-- C8: the Discoverer returns at most `quantidade` repositories, and every
returned repository's estimated closed-PR count meets `MIN_PRS_COUNT`. -/
theorem C8_discoverer_bounded_and_filtered (net : Net) (clock : Clock)
    (fuel quantidade : Nat) (repos : List JVal)
    (h : buscar_repositorios_populares net clock fuel quantidade = .ok repos) :
    repos.length ≤ quantidade ∧
    ∀ r ∈ repos, ∃ v, pyIndex r "full_name" = .ok v ∧
      MIN_PRS_COUNT ≤ obter_numero_prs_fechados net clock (jvalToStr v) := by
  have hs := buscarLoop_spec net clock quantidade fuel 1 [] repos h (by simp)
  exact ⟨hs.1, hs.2⟩

theorem C8_discoverer_bounded_and_filtered_witness :
    ([] : List JVal).length ≤ REPOS_LIMIT ∧
    ∀ r ∈ ([] : List JVal), ∃ v, pyIndex r "full_name" = .ok v ∧
      MIN_PRS_COUNT ≤ obter_numero_prs_fechados netConnFail clkZero (jvalToStr v) :=
  C8_discoverer_bounded_and_filtered netConnFail clkZero 1 REPOS_LIMIT [] (by decide)

/-! ## The driver's rows: shape, cap and order -/

theorem processPR_repo_name {repo_name : String} {pr_number pr_data reviews : JVal}
    {rec : Record}
    (h : processPR repo_name pr_number pr_data reviews = .ok (some rec)) :
    rec.repo_name = repo_name := by
  obtain ⟨_, _, _, _, _, _, _, _, _, _, _, _, _, _, _,
    _, _, _, _, _, _, _, _, _, _, _, _, _, _, _, _, _, hrec⟩ := processPR_ok_some_inv h
  rw [hrec]

theorem handleCollect_ok_some {x : Except Exc (Option Record)} {rec : Record}
    (h : handleCollect x = .ok (some rec)) : x = .ok (some rec) := by
  cases x with
  | ok r =>
    unfold handleCollect at h
    exact h
  | error e =>
    unfold handleCollect at h
    dsimp only at h
    split at h
    · cases h
    · cases h

theorem collectBody_ok_some {net : Net} {clock : Clock} {name : String} {num : JVal}
    {url : String} {rec : Record}
    (h : collectBody net clock name num url = .ok (some rec)) :
    ∃ b1 b2, processPR name num b1 b2 = .ok (some rec) := by
  unfold collectBody at h
  repeat' split at h
  all_goals try exact absurd h (fun hh => Except.noConfusion hh)
  exact ⟨_, _, h⟩

theorem coletar_ok_some_repo_name {net : Net} {clock : Clock} {name : String}
    {pr : JVal} {rec : Record}
    (h : coletar_dados_pr net clock name pr = .ok (some rec)) :
    rec.repo_name = name := by
  unfold coletar_dados_pr at h
  repeat' split at h
  all_goals try exact absurd h (fun hh => Except.noConfusion hh)
  obtain ⟨b1, b2, hb⟩ := collectBody_ok_some (handleCollect_ok_some h)
  exact processPR_repo_name hb

theorem collectOk_eq_none_of_error {net : Net} {clock : Clock} {name : String}
    {pr : JVal} {e : Exc} (h : coletar_dados_pr net clock name pr = .error e) :
    collectOk net clock name pr = none := by
  unfold collectOk
  rw [h]

theorem collectOk_eq_none_of_none {net : Net} {clock : Clock} {name : String}
    {pr : JVal} (h : coletar_dados_pr net clock name pr = .ok none) :
    collectOk net clock name pr = none := by
  unfold collectOk
  rw [h]

theorem collectOk_eq_some {net : Net} {clock : Clock} {name : String}
    {pr : JVal} {rec : Record}
    (h : coletar_dados_pr net clock name pr = .ok (some rec)) :
    collectOk net clock name pr = some rec := by
  unfold collectOk
  rw [h]

theorem collectOk_repo_name {net : Net} {clock : Clock} {name : String}
    {pr : JVal} {rec : Record}
    (h : collectOk net clock name pr = some rec) : rec.repo_name = name := by
  unfold collectOk at h
  split at h
  · rename_i r heq
    injection h with h1
    subst h1
    exact coletar_ok_some_repo_name heq
  · cases h

theorem coletar_error_of_number_error {net : Net} {clock : Clock} {name : String}
    {pr : JVal} {e : Exc} (h : pyIndex pr "number" = .error e) :
    coletar_dados_pr net clock name pr = .error e := by
  unfold coletar_dados_pr
  rw [h]

set_option maxHeartbeats 1000000 in
theorem processPagePRs_spec (net : Net) (clock : Clock) (name : String) :
    ∀ (prsL : List JVal) (cnt : Nat) (rows : List Record) (seen : List JVal)
      (cnt1 : Nat) (rows1 : List Record) (seen1 : List JVal) (ab : Bool),
      processPagePRs net clock name prsL cnt rows seen = (cnt1, rows1, seen1, ab) →
      cnt < PRS_LIMIT →
      ∃ d tail, prsL = d ++ tail ∧
        seen1 = seen ++ d ∧
        rows1 = rows ++ d.filterMap (collectOk net clock name) ∧
        cnt1 = cnt + (d.filterMap (collectOk net clock name)).length ∧
        cnt1 ≤ PRS_LIMIT ∧
        (ab = false → tail = [] ∨ PRS_LIMIT ≤ cnt1) := by
  intro prsL
  induction prsL with
  | nil =>
    intro cnt rows seen cnt1 rows1 seen1 ab h hcnt
    unfold processPagePRs at h
    cases h
    exact ⟨[], [], by simp, by simp, by simp, by simp, le_of_lt hcnt,
      fun _ => Or.inl rfl⟩
  | cons pr rest ih =>
    intro cnt rows seen cnt1 rows1 seen1 ab h hcnt
    unfold processPagePRs at h
    cases hn : pyIndex pr "number" with
    | error e =>
      rw [hn] at h
      dsimp only at h
      cases h
      have hco : collectOk net clock name pr = none :=
        collectOk_eq_none_of_error (coletar_error_of_number_error hn)
      exact ⟨[pr], rest, rfl, rfl, by simp [List.filterMap_cons, hco], by simp [List.filterMap_cons, hco], le_of_lt hcnt, nofun⟩
    | ok numv =>
      rw [hn] at h
      dsimp only at h
      cases hc : coletar_dados_pr net clock name pr with
      | error e =>
        rw [hc] at h
        dsimp only at h
        cases h
        have hco : collectOk net clock name pr = none := collectOk_eq_none_of_error hc
        exact ⟨[pr], rest, rfl, rfl, by simp [List.filterMap_cons, hco], by simp [List.filterMap_cons, hco], le_of_lt hcnt, nofun⟩
      | ok o =>
        cases o with
        | none =>
          rw [hc] at h
          dsimp only at h
          rw [if_neg (by omega)] at h
          have hco : collectOk net clock name pr = none := collectOk_eq_none_of_none hc
          obtain ⟨d, tail, hdt, hseen, hrows, hcnt1, hle, hab⟩ :=
            ih cnt rows (seen ++ [pr]) cnt1 rows1 seen1 ab h hcnt
          exact ⟨pr :: d, tail, by rw [hdt]; rfl, by rw [hseen]; simp,
            by rw [hrows]; simp [hco], by rw [hcnt1]; simp [hco], hle, hab⟩
        | some rec =>
          rw [hc] at h
          dsimp only at h
          have hco : collectOk net clock name pr = some rec := collectOk_eq_some hc
          by_cases hq : PRS_LIMIT ≤ cnt + 1
          · rw [if_pos hq] at h
            cases h
            refine ⟨[pr], rest, rfl, rfl, by simp [List.filterMap_cons, hco], by simp [List.filterMap_cons, hco], by omega,
              fun _ => Or.inr ?_⟩
            omega
          · rw [if_neg hq] at h
            obtain ⟨d, tail, hdt, hseen, hrows, hcnt1, hle, hab⟩ :=
              ih (cnt + 1) (rows ++ [rec]) (seen ++ [pr]) cnt1 rows1 seen1 ab h (by omega)
            refine ⟨pr :: d, tail, by rw [hdt]; rfl, by rw [hseen]; simp,
              by rw [hrows]; simp [hco], ?_, hle, hab⟩
            rw [hcnt1]
            simp only [List.filterMap_cons, hco, List.length_cons]
            omega

theorem processRepoLoop_done (net : Net) (clock : Clock) (name : String)
    (fuel page cnt : Nat) (rows : List Record) (seen : List JVal)
    (h : PRS_LIMIT ≤ cnt) :
    processRepoLoop net clock name fuel page cnt rows seen = (rows, seen) := by
  cases fuel with
  | zero => rfl
  | succ fuel =>
    unfold processRepoLoop
    rw [if_neg (by omega)]

theorem pagesFrom_one (net : Net) (clock : Clock) (name : String) (page : Nat) :
    pagesFrom net clock name page 1 = pageItems net clock name page := by
  unfold pagesFrom
  rw [show List.range 1 = [0] from rfl]
  simp

theorem pagesFrom_succ (net : Net) (clock : Clock) (name : String) (page k : Nat) :
    pagesFrom net clock name page (k + 1)
      = pageItems net clock name page ++ pagesFrom net clock name (page + 1) k := by
  unfold pagesFrom
  rw [List.range_succ_eq_map]
  simp only [List.map_cons, List.flatten_cons, List.map_map, Nat.add_zero]
  congr 1
  congr 1
  apply List.map_congr_left
  intro i _
  simp only [Function.comp_apply]
  congr 1
  omega

set_option maxHeartbeats 1000000 in
theorem processRepoLoop_spec (net : Net) (clock : Clock) (name : String) :
    ∀ (fuel page cnt : Nat) (rows : List Record) (seen : List JVal),
      cnt ≤ PRS_LIMIT →
      ∃ D k E,
        (processRepoLoop net clock name fuel page cnt rows seen).2 = seen ++ D ∧
        (processRepoLoop net clock name fuel page cnt rows seen).1
          = rows ++ D.filterMap (collectOk net clock name) ∧
        D ++ E = pagesFrom net clock name page k ∧
        (D.filterMap (collectOk net clock name)).length ≤ PRS_LIMIT - cnt := by
  intro fuel
  induction fuel with
  | zero =>
    intro page cnt rows seen hcnt
    exact ⟨[], 0, [], by simp [processRepoLoop], by simp [processRepoLoop], rfl, by simp⟩
  | succ fuel ih =>
    intro page cnt rows seen hcnt
    by_cases hlt : cnt < PRS_LIMIT
    · rw [processRepoLoop, if_pos hlt]
      cases hfp : fetchPage net clock name page with
      | error e => exact ⟨[], 0, [], by simp, by simp, rfl, by simp⟩
      | ok prs =>
        dsimp only
        by_cases htr : pyTruthy prs
        · rw [if_pos htr]
          cases hit : pyIterE prs with
          | error e => exact ⟨[], 0, [], by simp, by simp, rfl, by simp⟩
          | ok prsL =>
            dsimp only
            have hpage : pageItems net clock name page = prsL := by
              unfold pageItems
              rw [hfp]
              dsimp only
              rw [if_pos htr, hit]
            obtain ⟨d, tail, hdt, hseen, hrows, hcnt1, hle, hab⟩ :=
              processPagePRs_spec net clock name prsL cnt rows seen
                (processPagePRs net clock name prsL cnt rows seen).1
                (processPagePRs net clock name prsL cnt rows seen).2.1
                (processPagePRs net clock name prsL cnt rows seen).2.2.1
                (processPagePRs net clock name prsL cnt rows seen).2.2.2
                rfl hlt
            by_cases hb : (processPagePRs net clock name prsL cnt rows seen).2.2.2
            · rw [if_pos hb]
              refine ⟨d, 1, tail, by rw [hseen], by rw [hrows], ?_, by omega⟩
              rw [pagesFrom_one, hpage, ← hdt]
            · rw [if_neg hb]
              by_cases hq : PRS_LIMIT ≤ (processPagePRs net clock name prsL cnt rows seen).1
              · rw [processRepoLoop_done net clock name fuel (page + 1) _ _ _ hq]
                refine ⟨d, 1, tail, by rw [hseen], by rw [hrows], ?_, by omega⟩
                rw [pagesFrom_one, hpage, ← hdt]
              · have htail : tail = [] := by
                  rcases hab (by simpa using hb) with h1 | h1
                  · exact h1
                  · exact absurd h1 hq
                have hd : d = pageItems net clock name page := by
                  rw [hpage, hdt, htail]
                  simp
                obtain ⟨D2, k2, E2, hs2, hr2, hp2, hl2⟩ :=
                  ih (page + 1) (processPagePRs net clock name prsL cnt rows seen).1
                    (processPagePRs net clock name prsL cnt rows seen).2.1
                    (processPagePRs net clock name prsL cnt rows seen).2.2.1 hle
                refine ⟨d ++ D2, k2 + 1, E2, ?_, ?_, ?_, ?_⟩
                · rw [hs2, hseen]
                  simp [List.append_assoc]
                · rw [hr2, hrows]
                  simp [List.filterMap_append, List.append_assoc]
                · rw [pagesFrom_succ, List.append_assoc, hp2, hd]
                · rw [List.filterMap_append]
                  rw [List.length_append]
                  have e1 : (d.filterMap (collectOk net clock name)).length
                      = (processPagePRs net clock name prsL cnt rows seen).1 - cnt := by
                    omega
                  omega
        · rw [if_neg htr]
          exact ⟨[], 0, [], by simp, by simp, rfl, by simp⟩
    · rw [processRepoLoop, if_neg hlt]
      exact ⟨[], 0, [], by simp, by simp, rfl, by simp⟩

theorem processRepo_spec (net : Net) (clock : Clock) (name : String) (fuel : Nat) :
    (processRepo net clock name fuel).1
      = (processRepo net clock name fuel).2.filterMap (collectOk net clock name) ∧
    (processRepo net clock name fuel).1.length ≤ PRS_LIMIT ∧
    ∃ k E, (processRepo net clock name fuel).2 ++ E = pagesJoined net clock name k := by
  obtain ⟨D, k, E, h1, h2, h3, h4⟩ :=
    processRepoLoop_spec net clock name fuel 1 0 [] [] (Nat.zero_le _)
  unfold processRepo
  refine ⟨?_, ?_, k, E, ?_⟩
  · rw [h1, h2]
    simp
  · rw [h2]
    simpa using h4
  · rw [h1]
    simpa [pagesJoined] using h3

theorem mainRepos_spec (net : Net) (clock : Clock) (fuel : Nat) :
    ∀ (repos : List JVal) (rows0 : List Record),
      ∃ kk, kk ≤ repos.length ∧
        (mainRepos net clock fuel repos rows0).1
          = rows0 ++ ((repos.take kk).map (repoRows net clock fuel)).flatten ∧
        ∀ r ∈ repos.take kk, ∃ name, repoNameOf r = some name := by
  intro repos
  induction repos with
  | nil =>
    intro rows0
    exact ⟨0, Nat.le_refl 0, by simp [mainRepos], by simp⟩
  | cons repo rest ih =>
    intro rows0
    unfold mainRepos
    cases hfn : pyIndex repo "full_name" with
    | error e => exact ⟨0, by simp, by simp, by simp⟩
    | ok v =>
      dsimp only
      obtain ⟨kk, hk, hrows, hnames⟩ :=
        ih (rows0 ++ (processRepo net clock (jvalToStr v) fuel).1)
      refine ⟨kk + 1, by simpa using hk, ?_, ?_⟩
      · rw [hrows]
        have hrr : repoRows net clock fuel repo
            = (processRepo net clock (jvalToStr v) fuel).1 := by
          unfold repoRows repoNameOf
          rw [hfn]
        simp [List.take_succ_cons, hrr, List.append_assoc]
      · intro r hr
        rw [List.take_succ_cons] at hr
        rcases List.mem_cons.mp hr with rfl | hr
        · exact ⟨jvalToStr v, by unfold repoNameOf; rw [hfn]⟩
        · exact hnames r hr

/-- C3: the rows `main` writes are, in discovery order, the concatenation of
per-repository blocks over a prefix of the discovered repositories (the whole
list unless a repository aborts the run); each block holds at most
`PRS_LIMIT` (25) rows, each of its rows carries that repository's name, and
each block is the in-order filtering (`filterMap`) of the PR summaries the
driver iterated, which form a prefix of the concatenation of the listing
pages in API order. -/
theorem C3_driver_rows (net : Net) (clock : Clock) (fuel : Nat) (repos : List JVal)
    (hdisc : buscar_repositorios_populares net clock fuel REPOS_LIMIT = .ok repos) :
    ∃ kk, kk ≤ repos.length ∧
      (mainRun net clock fuel).1
        = ((repos.take kk).map (repoRows net clock fuel)).flatten ∧
      (∀ repo, (repoRows net clock fuel repo).length ≤ PRS_LIMIT) ∧
      (∀ repo name, repoNameOf repo = some name →
        repoRows net clock fuel repo
          = (processRepo net clock name fuel).2.filterMap (collectOk net clock name) ∧
        (∀ rec ∈ repoRows net clock fuel repo, rec.repo_name = name) ∧
        ∃ k E, (processRepo net clock name fuel).2 ++ E = pagesJoined net clock name k) ∧
      (∀ rec ∈ (mainRun net clock fuel).1, rec.repo_name ∈ repos.filterMap repoNameOf) := by
  have hm : mainRun net clock fuel = mainRepos net clock fuel repos [] := by
    unfold mainRun
    rw [hdisc]
  obtain ⟨kk, hk, hrows, hnames⟩ := mainRepos_spec net clock fuel repos []
  refine ⟨kk, hk, by rw [hm, hrows]; simp, ?_, ?_, ?_⟩
  · intro repo
    unfold repoRows
    cases hrn : repoNameOf repo with
    | none => exact Nat.zero_le _
    | some name => exact (processRepo_spec net clock name fuel).2.1
  · intro repo name hrn
    have hrr : repoRows net clock fuel repo = (processRepo net clock name fuel).1 := by
      unfold repoRows
      rw [hrn]
    obtain ⟨hfm, hlen, hpg⟩ := processRepo_spec net clock name fuel
    refine ⟨by rw [hrr, hfm], ?_, hpg⟩
    intro rec hrec
    rw [hrr, hfm] at hrec
    obtain ⟨pr, hpr, hcol⟩ := List.mem_filterMap.mp hrec
    exact collectOk_repo_name hcol
  · intro rec hrec
    rw [hm, hrows] at hrec
    simp only [List.nil_append] at hrec
    obtain ⟨l, hl, hrecl⟩ := List.mem_flatten.mp hrec
    obtain ⟨repo, hrepo, rfl⟩ := List.mem_map.mp hl
    obtain ⟨name, hname⟩ := hnames repo hrepo
    have hrr : repoRows net clock fuel repo = (processRepo net clock name fuel).1 := by
      unfold repoRows
      rw [hname]
    have hrn : rec.repo_name = name := by
      rw [hrr, (processRepo_spec net clock name fuel).1] at hrecl
      obtain ⟨pr, _, hcol⟩ := List.mem_filterMap.mp hrecl
      exact collectOk_repo_name hcol
    rw [hrn]
    exact List.mem_filterMap.mpr ⟨repo, List.take_subset _ _ hrepo, hname⟩

theorem C3_driver_rows_witness :
    ∃ kk, kk ≤ ([] : List JVal).length ∧
      (mainRun netConnFail clkZero 1).1
        = ((([] : List JVal).take kk).map (repoRows netConnFail clkZero 1)).flatten ∧
      (∀ repo, (repoRows netConnFail clkZero 1 repo).length ≤ PRS_LIMIT) ∧
      (∀ repo name, repoNameOf repo = some name →
        repoRows netConnFail clkZero 1 repo
          = (processRepo netConnFail clkZero name 1).2.filterMap
              (collectOk netConnFail clkZero name) ∧
        (∀ rec ∈ repoRows netConnFail clkZero 1 repo, rec.repo_name = name) ∧
        ∃ k E, (processRepo netConnFail clkZero name 1).2 ++ E
          = pagesJoined netConnFail clkZero name k) ∧
      (∀ rec ∈ (mainRun netConnFail clkZero 1).1,
        rec.repo_name ∈ ([] : List JVal).filterMap repoNameOf) :=
  C3_driver_rows netConnFail clkZero 1 [] (by decide)
